import Mathlib

/-!
Shallow embedding of `src/lib.rs` of michealparks/lib-ai.

The Rust source declares two host-provided capabilities, `alert` and `log`,
and exposes two entry points:

  pub fn greet(name: &str) { alert(&format!("Hello, {}!", name)); }
  pub fn main() { log("Hello, world!"); }

A host-capability invocation is modelled as an `Event`; each entry point is
embedded as a pure function returning its (unit) result value together with
the finite trace of host invocations it performs, in order.
-/

namespace LibAI

/-- A single invocation of a host capability, carrying the string argument
passed across the boundary. -/
inductive Event where
  | alert (s : String)
  | log (s : String)
deriving DecidableEq, Repr

/-- `true` exactly on invocations of the `alert` capability. -/
def Event.isAlert : Event → Bool
  | .alert _ => true
  | .log _ => false

/-- `true` exactly on invocations of the `log` capability. -/
def Event.isLog : Event → Bool
  | .alert _ => false
  | .log _ => true

/-- The string built by `format!("Hello, {}!", name)`: the `{}` placeholder
formats a `&str` verbatim, so the result is plain concatenation. -/
def greetMsg (name : String) : String := "Hello, " ++ name ++ "!"

/-- Embedding of `pub fn greet(name: &str)`: builds the formatted message and
passes it to the host `alert` capability. Result value paired with the trace
of host invocations. -/
def greet (name : String) : Unit × List Event :=
  ((), [Event.alert (greetMsg name)])

/-- Embedding of `pub fn main()`: passes the literal `"Hello, world!"` to the
host `log` capability. -/
def main : Unit × List Event :=
  ((), [Event.log "Hello, world!"])

/-- One call made by the host into this module: either `greet` with some
name, or `main`. -/
inductive Call where
  | greet (name : String)
  | main
deriving DecidableEq

/-- The trace of host invocations produced by a single call. -/
def runCall : Call → List Event
  | .greet n => (greet n).2
  | .main => main.2

/-- The trace produced by a sequence of calls, each run to completion in
order. -/
def runCalls : List Call → List Event
  | [] => []
  | c :: cs => runCall c ++ runCalls cs

/-- The one host invocation attributable to a call. -/
def eventOf : Call → Event
  | .greet n => Event.alert (greetMsg n)
  | .main => Event.log "Hello, world!"

/-- Embedding of `greet` against an explicit host: the host `alert`
capability may fail (with an opaque host error `ε`); `greet` itself performs
no fallible operation, it only forwards the formatted message. -/
def greetHost {ε : Type} (hostAlert : String → Except ε Unit) (name : String) :
    Except ε Unit :=
  hostAlert (greetMsg name)

/-- Embedding of `main` against an explicit host `log` capability. -/
def mainHost {ε : Type} (hostLog : String → Except ε Unit) : Except ε Unit :=
  hostLog "Hello, world!"

/-- State-passing embedding of `greet`: the world is the history of host
invocations so far; a call appends its own invocations. The source has no
mutable state of its own, so the world is the whole state. -/
def greetStep (name : String) (w : List Event) : List Event :=
  w ++ (greet name).2

/-- State-passing embedding of `main`. -/
def mainStep (w : List Event) : List Event :=
  w ++ main.2

/-- Recover the name from a greeting message by stripping the 7-character
prefix `"Hello, "` and the 1-character suffix `"!"`. -/
def recoverName (m : String) : String :=
  ⟨(m.data.drop 7).dropLast⟩

/-- The characters of the message built by `greet` are exactly the prefix,
the name verbatim, and the suffix. -/
theorem greetMsg_data (n : String) :
    (greetMsg n).data = "Hello, ".data ++ n.data ++ ['!'] := by
  simp [greetMsg, String.data_append]

/-- C1: for every input name `n` (including the empty string), `greet n`
invokes the host `alert` capability exactly once, with exactly the string
`"Hello, " ++ n ++ "!"`, and performs no other side effect; in particular it
never invokes `log`. -/
theorem greet_alert_exactly_once (n : String) :
    (greet n).2 = [Event.alert ("Hello, " ++ n ++ "!")] ∧
      (greet n).2.countP Event.isAlert = 1 ∧
      (greet n).2.countP Event.isLog = 0 :=
  ⟨rfl, rfl, rfl⟩

/-- C2: `main` invokes the host `log` capability exactly once, with exactly
the literal string `"Hello, world!"`, and performs no other side effect; in
particular it never invokes `alert`. -/
theorem main_log_exactly_once :
    main.2 = [Event.log "Hello, world!"] ∧
      main.2.countP Event.isLog = 1 ∧
      main.2.countP Event.isAlert = 0 :=
  ⟨rfl, rfl, rfl⟩

/-- C3: for the specific input `"World"`, `greet` invokes the `alert`
capability exactly once with the exact string `"Hello, World!"`. -/
theorem greet_world :
    (greet "World").2 = [Event.alert "Hello, World!"] := by
  decide

/-- C4: in any sequence of calls, each call to `greet` or `main` produces
exactly one host-capability invocation attributable to that call: `k` calls
produce exactly `k` invocations, one per call in order, with no batching,
deduplication, or memoization. -/
theorem calls_one_invocation_each (cs : List Call) :
    runCalls cs = cs.map eventOf ∧ (runCalls cs).length = cs.length := by
  have h : runCalls cs = cs.map eventOf := by
    induction cs with
    | nil => rfl
    | cons c cs ih =>
      cases c <;> simp [runCalls, runCall, eventOf, greet, main, ih]
  exact ⟨h, by rw [h, List.length_map]⟩

/-- C5: neither `greet` nor `main` returns a value: both produce the unit
result, and with a host whose capabilities return normally neither call
fails. -/
theorem greet_main_return_unit {ε : Type} (n : String)
    (hA hL : String → Except ε Unit)
    (hAok : ∀ s, hA s = Except.ok ()) (hLok : ∀ s, hL s = Except.ok ()) :
    (greet n).1 = () ∧ main.1 = () ∧
      greetHost hA n = Except.ok () ∧ mainHost hL = Except.ok () :=
  ⟨rfl, rfl, hAok _, hLok _⟩

/-- C5 witness: instantiated with a host whose capabilities always return
normally and the name `"World"`. -/
theorem greet_main_return_unit_witness :
    (greet "World").1 = () ∧ main.1 = () ∧
      @greetHost Unit (fun _ => Except.ok ()) "World" = Except.ok () ∧
      @mainHost Unit (fun _ => Except.ok ()) = Except.ok () :=
  greet_main_return_unit "World" (fun _ => Except.ok ()) (fun _ => Except.ok ())
    (fun _ => rfl) (fun _ => rfl)

/-- C6: the code path of `greet` and `main` cannot itself fail: against an
arbitrary host, the outcome of each entry point is exactly the outcome of
the single host-capability call it makes, so any error originates inside the
host-provided `alert`/`log` capabilities, never in this code. -/
theorem no_self_failure {ε : Type} (hA hL : String → Except ε Unit)
    (n : String) :
    greetHost hA n = hA ("Hello, " ++ n ++ "!") ∧
      mainHost hL = hL "Hello, world!" :=
  ⟨rfl, rfl⟩

/-- C7: `greet` and `main` are stateless and deterministic: the invocations
attributable to a call do not depend on the history of prior invocations, so
two calls of `greet` with the same name pass the same message to `alert`, and
every call of `main` passes the same message to `log`. -/
theorem greet_main_stateless (w w' : List Event) (n : String) :
    (greetStep n w).drop w.length = (greetStep n w').drop w'.length ∧
      (mainStep w).drop w.length = (mainStep w').drop w'.length := by
  constructor <;> simp [greetStep, mainStep]

/-- C8: the message construction of `greet` is injective — distinct names
yield distinct strings passed to `alert` — and the name is recoverable from
the message by stripping the fixed prefix `"Hello, "` and the fixed suffix
`"!"`. -/
theorem greetMsg_injective_recoverable :
    (∀ n, recoverName (greetMsg n) = n) ∧
      (∀ n₁ n₂, greetMsg n₁ = greetMsg n₂ → n₁ = n₂) := by
  have hrec : ∀ n, recoverName (greetMsg n) = n := by
    intro n
    apply String.ext
    show ((greetMsg n).data.drop 7).dropLast = n.data
    show (n.data ++ ['!']).dropLast = n.data
    simp
  refine ⟨hrec, fun n₁ n₂ h => ?_⟩
  have h2 := congrArg recoverName h
  rwa [hrec n₁, hrec n₂] at h2

/-- C8 witness: recovery and injectivity instantiated at the concrete name
`"World"`. -/
theorem greetMsg_injective_recoverable_witness :
    recoverName (greetMsg "World") = "World" ∧ "World" = "World" :=
  ⟨greetMsg_injective_recoverable.1 "World",
    greetMsg_injective_recoverable.2 "World" "World" rfl⟩

/-- C9: `greet` embeds the name verbatim: the characters of the message
passed to `alert` are exactly the prefix, every character of the name
literally and unescaped, and the suffix; in particular the name is an infix
of the message. -/
theorem greet_embeds_name_verbatim (n : String) :
    (greetMsg n).data = "Hello, ".data ++ n.data ++ "!".data ∧
      List.IsInfix n.data (greetMsg n).data := by
  refine ⟨by rw [greetMsg_data], ?_⟩
  exact ⟨"Hello, ".data, ['!'], (greetMsg_data n).symm⟩

/-- C10: both `greet` and `main` terminate for every input: each is embedded
as a total straight-line function whose trace is a single capability call. -/
theorem greet_main_terminate (n : String) :
    ((greet n).2).length = 1 ∧ main.2.length = 1 :=
  ⟨rfl, rfl⟩

end LibAI
